import Mathlib

/-!
A shallow embedding of the flow checkpoint scripts of this repository
(src/flow.py, src/old_flow/flow.py, src/new_flow/flow.py) together with
proofs about their input classifier, session-log persistence, editor
subprocess bridge, and main session loop.

Python strings are modelled as `List Char`.  The methods str.lower and
str.strip are modelled on the ASCII fragment the scripts exercise, and
the regex word-character class of old_flow is modelled on ASCII as well.
-/

/-- ASCII model of the Python method str.lower on a single character. -/
def lowerChar (c : Char) : Char :=
  if 'A' ≤ c ∧ c ≤ 'Z' then Char.ofNat (c.toNat + 32) else c

/-- Model of the Python method str.lower. -/
def lowerStr (s : List Char) : List Char := s.map lowerChar

/-- ASCII whitespace recognised by the Python method str.strip with no argument. -/
def isSpaceChar (c : Char) : Bool :=
  c == ' ' || c == '\t' || c == '\n' || c == '\r' || c == '\x0b' || c == '\x0c'

/-- Remove leading whitespace. -/
def stripLeft (s : List Char) : List Char := s.dropWhile isSpaceChar

/-- Remove trailing whitespace. -/
def stripRight (s : List Char) : List Char := (s.reverse.dropWhile isSpaceChar).reverse

/-- Model of the Python method str.strip: remove leading and trailing whitespace. -/
def strip (s : List Char) : List Char := stripRight (stripLeft s)

/-- Convert a Lean string literal to the character-list model. -/
def str (s : String) : List Char := s.data

/-- Does `hay` start with `needle`? -/
def startsWith : List Char → List Char → Bool
  | _, [] => true
  | [], _ :: _ => false
  | c :: cs, d :: ds => c == d && startsWith cs ds

/-- Model of the Python substring test `needle in hay`. -/
def containsSub (hay needle : List Char) : Bool :=
  match hay with
  | [] => startsWith [] needle
  | c :: cs => startsWith (c :: cs) needle || containsSub cs needle

/-- Index of the first occurrence of `needle` in `hay`: the found case of the
Python method str.find.  Both uses in the source (src/new_flow/flow.py lines
83 to 84, src/old_flow/flow.py lines 544 to 545) are guarded by a containment
check, so only the found case is ever exercised. -/
def pyFind (hay needle : List Char) : Nat :=
  match hay with
  | [] => 0
  | c :: cs => if startsWith (c :: cs) needle then 0 else pyFind cs needle + 1

/-- Python slice `s[a:b]` for the non-negative indexes the source produces. -/
def pySlice (s : List Char) (a b : Nat) : List Char := (s.drop a).take (b - a)

/-- ASCII model of the regex word-character class used by the word-boundary
search in src/old_flow/flow.py line 605. -/
def isWordChar (c : Char) : Bool :=
  (decide ('a' ≤ c) && decide (c ≤ 'z')) ||
  (decide ('A' ≤ c) && decide (c ≤ 'Z')) ||
  (decide ('0' ≤ c) && decide (c ≤ '9')) || c == '_'

/-- A word boundary holds before the current position: `prev` is the character
just before it, if any. -/
def boundaryBefore (prev : Option Char) : Bool :=
  match prev with
  | none => true
  | some c => !isWordChar c

/-- A word boundary holds right after a match that is followed by `rest`. -/
def boundaryAfter (rest : List Char) : Bool :=
  match rest with
  | [] => true
  | c :: _ => !isWordChar c

/-- Worker for `wbSearch`: scans `hay` position by position, carrying the
character just before the current position. -/
def wbAux (prev : Option Char) (hay needle : List Char) : Bool :=
  match hay with
  | [] => boundaryBefore prev && startsWith [] needle && boundaryAfter []
  | c :: cs =>
    (boundaryBefore prev && startsWith (c :: cs) needle &&
      boundaryAfter ((c :: cs).drop needle.length)) ||
    wbAux (some c) cs needle

/-- Model of the word-boundary regex search in src/old_flow/flow.py line 605:
does `needle` occur in `hay` delimited by word boundaries on both sides?
Faithful for needles made of word characters, which is the case for both
old_flow finish keywords. -/
def wbSearch (hay needle : List Char) : Bool := wbAux none hay needle

/-- Intent values; the source serializes them as the Python strings
continue, finish, help.  `cont` stands for the Python string continue. -/
inductive Intent where
  | finish
  | help
  | cont
deriving DecidableEq

/-- Finish keywords of process_input in src/flow.py line 55. -/
def Flow.finish_keywords : List (List Char) :=
  [str "done", str "finish", str "end", str "complete", str "stop",
   str "exit", str "quit"]

/-- Embeds process_input of src/flow.py lines 50 to 64: substring match
against the finish keywords, then substring match of help, else continue. -/
def Flow.process_input (user_input : List Char) : Intent × List Char :=
  let input_lower := strip (lowerStr user_input)
  if Flow.finish_keywords.any (fun keyword => containsSub input_lower keyword) then
    (Intent.finish, user_input)
  else if containsSub input_lower (str "help") then
    (Intent.help, user_input)
  else
    (Intent.cont, user_input)

/-- Finish keywords of process_input in src/old_flow/flow.py line 602. -/
def OldFlow.finish_keywords : List (List Char) := [str "done", str "finish"]

/-- Embeds process_input of src/old_flow/flow.py lines 596 to 618: word-boundary
regex match of the keywords done and finish, then substring match of help, then
a gui-keyword check whose both outcomes are continue. -/
def OldFlow.process_input (user_input : List Char) : Intent × List Char :=
  let input_lower := strip (lowerStr user_input)
  if OldFlow.finish_keywords.any (fun keyword => wbSearch input_lower keyword) then
    (Intent.finish, user_input)
  else if containsSub input_lower (str "help") then
    (Intent.help, user_input)
  else if input_lower = str "gui" ∨ input_lower = str "edit" ∨ input_lower = str "editor" then
    (Intent.cont, user_input)
  else
    (Intent.cont, user_input)

/-- Embeds process_input of src/new_flow/flow.py lines 132 to 141: substring
match of help, else always continue; there are no finish keywords. -/
def NewFlow.process_input (user_input : List Char) : Intent × List Char :=
  let input_lower := strip (lowerStr user_input)
  if containsSub input_lower (str "help") then
    (Intent.help, user_input)
  else
    (Intent.cont, user_input)

example : (Flow.process_input (str "we are done.")).1 = Intent.finish := by decide
example : (OldFlow.process_input (str "we are done.")).1 = Intent.finish := by decide
example : (NewFlow.process_input (str "we are done.")).1 = Intent.cont := by decide
example : (OldFlow.process_input (str "unfinished work")).1 = Intent.cont := by decide
example : (Flow.process_input (str "that would help")).1 = Intent.help := by decide

/-- One record of the session log, built in save_session_log of every
variant as a dictionary of timestamp, action and user_input. -/
structure LogEntry where
  timestamp : List Char
  action : Intent
  user_input : List Char
deriving DecidableEq

/-- Observable states of one JSON file on disk.  `blank` is an existing file
whose content strips to the empty string, `corrupt` an existing file whose
content does not parse as JSON, `valid` a file holding a JSON array of log
entries.  The scripts themselves only ever write `valid` states; the other
states model pre-existing files.  A file holding valid JSON that is not an
array is outside the model (no claim exercises it). -/
inductive Disk where
  | absent
  | blank
  | corrupt (raw : List Char)
  | valid (logs : List LogEntry)
deriving DecidableEq

/-- The two files save_session_log can touch: the log file session_log.json
and its sibling session_log.json.backup. -/
structure FS where
  log : Disk
  backup : Disk
deriving DecidableEq

/-- Read phase of save_session_log in src/flow.py lines 136 to 140 (identical
in src/old_flow/flow.py lines 698 to 702): an absent file yields the empty
array, while json.load raises on a blank or corrupt file; the error value
models the raised exception. -/
def Flow.read_logs (d : Disk) : Except Unit (List LogEntry) :=
  match d with
  | Disk.absent => Except.ok []
  | Disk.blank => Except.error ()
  | Disk.corrupt _ => Except.error ()
  | Disk.valid l => Except.ok l

/-- Embeds save_session_log of src/flow.py lines 125 to 148; the function in
src/old_flow/flow.py lines 687 to 710 is textually identical and is embedded
by this same definition.  `pOk` tells whether the write of the log file
succeeds; a failed write is modelled as leaving the file unchanged (the open
call raising before truncation).  Every exception is swallowed by the
except clause printing a warning, so the function is total and never touches
the backup file. -/
def Flow.save_session_log (now : List Char) (action : Intent) (user_input : List Char)
    (fs : FS) (pOk : Bool) : FS :=
  let log_entry : LogEntry := ⟨now, action, user_input⟩
  match Flow.read_logs fs.log with
  | Except.error _ => fs
  | Except.ok logs =>
    if pOk then { fs with log := Disk.valid (logs ++ [log_entry]) }
    else fs

/-- Read phase of save_session_log in src/new_flow/flow.py lines 208 to 221:
an absent file or blank content yields the empty array, and a JSON decode
error is caught, printing a warning and starting fresh from the empty array. -/
def NewFlow.read_logs (d : Disk) : List LogEntry :=
  match d with
  | Disk.absent => []
  | Disk.blank => []
  | Disk.corrupt _ => []
  | Disk.valid l => l

/-- Embeds save_session_log of src/new_flow/flow.py lines 197 to 237.  `pOk`
tells whether the write of the log file succeeds and `bOk` whether the write
of the backup file succeeds; a failed write is modelled as leaving the file
unchanged.  On a failed primary write the except clause writes the array
holding only the new entry to the backup path; a failure there is swallowed
by the bare except clause. -/
def NewFlow.save_session_log (now : List Char) (action : Intent) (user_input : List Char)
    (fs : FS) (pOk bOk : Bool) : FS :=
  let log_entry : LogEntry := ⟨now, action, user_input⟩
  let logs := NewFlow.read_logs fs.log
  if pOk then { fs with log := Disk.valid (logs ++ [log_entry]) }
  else if bOk then { fs with backup := Disk.valid [log_entry] }
  else fs

/-- Reading the log back after a run: json.load of the file, yielding the
array when the file holds one and failing otherwise. -/
def read_log_back (d : Disk) : Option (List LogEntry) :=
  match d with
  | Disk.valid l => some l
  | _ => none

/-- Result of the subprocess.run call on the gui helper: exit code, captured
standard output and captured standard error. -/
structure ProcResult where
  returncode : Int
  stdout : List Char
  stderr : List Char
deriving DecidableEq

def startMarker : List Char := str "GUI_RESULT_START"

def endMarker : List Char := str "GUI_RESULT_END"

def cancelMarker : List Char := str "GUI_RESULT_CANCELLED"

/-- Content extraction of src/new_flow/flow.py lines 83 to 85 (identical in
src/old_flow/flow.py lines 544 to 546): slice between the end of the first
start marker and the first end marker, then strip. -/
def extractContent (output : List Char) : List Char :=
  let start_idx := pyFind output startMarker + startMarker.length
  let end_idx := pyFind output endMarker
  strip (pySlice output start_idx end_idx)

/-- Outcome of parsing one gui helper invocation. -/
inductive GuiParse where
  | cancelled
  | content (c : List Char)
  | emptyContent
  | unexpected
  | failed (err : List Char)
deriving DecidableEq

/-- Embeds the result parsing of src/new_flow/flow.py lines 76 to 113
(identical in src/old_flow/flow.py lines 537 to 574): on exit code 0 the
stripped output is checked for the cancel marker first, then for a complete
start and end marker pair, extracting and stripping the content in between;
empty extracted content and output without both markers are distinct failure
messages, and a non-zero exit code surfaces the error stream. -/
def parseGuiResult (r : ProcResult) : GuiParse :=
  if r.returncode = 0 then
    let output := strip r.stdout
    if containsSub output cancelMarker then GuiParse.cancelled
    else if containsSub output startMarker && containsSub output endMarker then
      let c := extractContent output
      if c ≠ [] then GuiParse.content c else GuiParse.emptyContent
    else GuiParse.unexpected
  else GuiParse.failed r.stderr

/-- One step of the caller after a gui invocation (src/new_flow/flow.py lines
76 to 118): accepted content is shown and the stripped, lowered choice line
decides between accepting it as the instruction and re-editing; every other
parse outcome breaks out of the gui loop, falling back to terminal input. -/
inductive GuiStep where
  | accept (c : List Char)
  | reedit (c : List Char)
  | abort
deriving DecidableEq

def guiStep (r : ProcResult) (choice : List Char) : GuiStep :=
  match parseGuiResult r with
  | GuiParse.content c =>
    if lowerStr (strip choice) = str "edit" then GuiStep.reedit c else GuiStep.accept c
  | _ => GuiStep.abort

example :
    parseGuiResult ⟨0, str "noise\nGUI_RESULT_START\nHello\nworld\nGUI_RESULT_END\ntrailer", []⟩
      = GuiParse.content (str "Hello\nworld") := by decide
example : parseGuiResult ⟨0, str "GUI_RESULT_CANCELLED", []⟩ = GuiParse.cancelled := by decide
example : parseGuiResult ⟨0, str "GUI_RESULT_START\n \nGUI_RESULT_END", []⟩
    = GuiParse.emptyContent := by decide

/-- Embeds get_user_input of src/flow.py lines 24 to 48 over the stream of
terminal lines: strip each line, re-prompt while the stripped line is empty,
return the first non-empty stripped line together with the unconsumed lines;
an exhausted stream models EOFError, on which the source returns the string
finish. -/
def Flow.get_user_input : List (List Char) → List Char × List (List Char)
  | [] => (str "finish", [])
  | line :: rest =>
    let u := strip line
    if u = [] then Flow.get_user_input rest else (u, rest)

/-- Observable events of one run of a main loop: `helps` counts how often the
help text was shown, `classified` records every string handed to
process_input, `saves` the arguments of every save_session_log call and
`responses` the action and instruction of every printed fenced response
block (the print sequence at src/flow.py lines 168 to 172 and
src/new_flow/flow.py lines 257 to 261). -/
structure RunResult where
  helps : Nat
  classified : List (List Char)
  saves : List (Intent × List Char)
  responses : List (Intent × List Char)
deriving DecidableEq

/-- Record one help iteration in front of the rest of a run. -/
def bumpHelp (c : List Char) (r : RunResult) : RunResult :=
  { r with helps := r.helps + 1, classified := c :: r.classified }

/-- The single logging and responding iteration ending a run. -/
def respond (c : List Char) (p : Intent × List Char) : RunResult :=
  { helps := 0, classified := [c], saves := [p], responses := [p] }

/-- Embeds main of src/flow.py lines 150 to 181 with get_user_input fused in:
the loop strips each terminal line, re-prompts on empty input, shows help and
re-prompts when process_input yields help, and otherwise logs the entry,
prints one response block and terminates.  On an exhausted stream
get_user_input returns the string finish, which process_input classifies as
finish (never help), so the loop logs and responds at once. -/
def Flow.mainLoop : List (List Char) → RunResult
  | [] => respond (str "finish") (Flow.process_input (str "finish"))
  | line :: rest =>
    let u := strip line
    if u = [] then Flow.mainLoop rest
    else
      let p := Flow.process_input u
      if p.1 = Intent.help then bumpHelp u (Flow.mainLoop rest)
      else respond u p

/-- Embeds the gui editing loop of src/new_flow/flow.py lines 58 to 121 over
the stream of subprocess results and the shared stream of terminal lines.
Each iteration launches the gui helper (consuming one subprocess result,
with the current content as its argument) and parses its output; accepted
content consumes one terminal line as the accept-or-edit choice.  The result
is the accepted content (or none for the fall back to terminal input)
together with the unconsumed streams.  An exhausted result stream models the
subprocess call raising, which the inner except clause turns into the fall
back; an exhausted line stream at the choice prompt models EOFError, which
the same except clause catches. -/
def NewFlow.guiLoop : List ProcResult → List (List Char) → List Char →
    Option (List Char) × List ProcResult × List (List Char)
  | [], lines, _ => (none, [], lines)
  | r :: procs, lines, _current =>
    match parseGuiResult r with
    | GuiParse.content c =>
      match lines with
      | [] => (none, procs, [])
      | choice :: rest =>
        if lowerStr (strip choice) = str "edit" then NewFlow.guiLoop procs rest c
        else (some c, procs, rest)
    | _ => (none, procs, lines)

/-- The gui loop never produces terminal lines: the unconsumed stream is at
most the stream it was given. -/
theorem guiLoop_lines_le (procs : List ProcResult) (lines : List (List Char))
    (cur : List Char) :
    (NewFlow.guiLoop procs lines cur).2.2.length ≤ lines.length := by
  induction procs generalizing lines cur with
  | nil => simp [NewFlow.guiLoop]
  | cons r procs ih =>
    simp only [NewFlow.guiLoop]
    cases parseGuiResult r with
    | content c =>
      cases lines with
      | nil => simp
      | cons choice rest =>
        by_cases h : lowerStr (strip choice) = str "edit"
        · simp only [h, if_pos]
          exact Nat.le_trans (ih rest c) (Nat.le_succ _)
        · simp only [h, if_neg, not_false_iff]
          exact Nat.le_succ _
    | cancelled => simp
    | emptyContent => simp
    | unexpected => simp
    | failed err => simp

/-- Embeds main of src/new_flow/flow.py lines 239 to 269 with get_user_input
(lines 37 to 130) fused in, over the stream of terminal lines and the stream
of gui subprocess results.  The loop strips each line and re-prompts on empty
input; a stripped line whose lowering is gui, edit or editor runs the gui
editing loop, whose accepted content is classified like typed input; help
shows the help text and re-prompts; any other classification logs the entry,
prints one response block and terminates.  An exhausted line stream models
EOFError, on which the source exits without logging or responding. -/
def NewFlow.mainLoop (lines : List (List Char)) (procs : List ProcResult) : RunResult :=
  match lines, procs with
  | [], _ => { helps := 0, classified := [], saves := [], responses := [] }
  | line :: rest, procs =>
    let u := strip line
    if u = [] then NewFlow.mainLoop rest procs
    else if lowerStr u = str "gui" ∨ lowerStr u = str "edit" ∨ lowerStr u = str "editor" then
      let g := NewFlow.guiLoop procs rest []
      match g.1 with
      | none => NewFlow.mainLoop g.2.2 g.2.1
      | some c =>
        let p := NewFlow.process_input c
        if p.1 = Intent.help then bumpHelp c (NewFlow.mainLoop g.2.2 g.2.1)
        else respond c p
    else
      let p := NewFlow.process_input u
      if p.1 = Intent.help then bumpHelp u (NewFlow.mainLoop rest procs)
      else respond u p
termination_by lines.length
decreasing_by
  all_goals simp only [List.length_cons]
  all_goals first
    | exact Nat.lt_succ_of_le (Nat.le_refl _)
    | exact Nat.lt_succ_of_le (guiLoop_lines_le procs rest [])

theorem dropWhile_idem (p : Char → Bool) (l : List Char) :
    (l.dropWhile p).dropWhile p = l.dropWhile p := by
  induction l with
  | nil => rfl
  | cons c cs ih =>
    by_cases h : p c = true
    · rw [List.dropWhile_cons, if_pos h, ih]
    · rw [List.dropWhile_cons, if_neg h, List.dropWhile_cons, if_neg h]

theorem dropWhile_head_false (p : Char → Bool) (l : List Char) (c : Char)
    (h : (l.dropWhile p).head? = some c) : p c = false := by
  induction l with
  | nil => simp [List.dropWhile_nil] at h
  | cons d ds ih =>
    by_cases hd : p d = true
    · rw [List.dropWhile_cons, if_pos hd] at h
      exact ih h
    · rw [List.dropWhile_cons, if_neg hd] at h
      simp only [List.head?_cons, Option.some.injEq] at h
      subst h
      simpa using hd

theorem dropWhile_of_head_false (p : Char → Bool) (l : List Char)
    (h : ∀ c, l.head? = some c → p c = false) : l.dropWhile p = l := by
  cases l with
  | nil => rfl
  | cons c cs =>
    rw [List.dropWhile_cons, if_neg]
    simp [h c rfl]

theorem dropWhile_suffix_ex (p : Char → Bool) (l : List Char) :
    ∃ t, t ++ l.dropWhile p = l := by
  induction l with
  | nil => exact ⟨[], rfl⟩
  | cons c cs ih =>
    by_cases h : p c = true
    · obtain ⟨t, ht⟩ := ih
      refine ⟨c :: t, ?_⟩
      rw [List.dropWhile_cons, if_pos h, List.cons_append, ht]
    · refine ⟨[], ?_⟩
      rw [List.dropWhile_cons, if_neg h, List.nil_append]

theorem stripRight_idem (y : List Char) : stripRight (stripRight y) = stripRight y := by
  simp [stripRight, List.reverse_reverse, dropWhile_idem]

theorem stripRight_head (y : List Char) (c : Char)
    (h : (stripRight y).head? = some c) : y.head? = some c := by
  obtain ⟨t, ht⟩ := dropWhile_suffix_ex isSpaceChar y.reverse
  have hy : stripRight y ++ t.reverse = y := by
    have h2 := congrArg List.reverse ht
    rw [List.reverse_append, List.reverse_reverse] at h2
    exact h2
  cases hsr : stripRight y with
  | nil => rw [hsr] at h; simp at h
  | cons d ds =>
    rw [hsr] at h hy
    simp only [List.head?_cons, Option.some.injEq] at h
    subst h
    rw [← hy]
    rfl

theorem strip_head_false (s : List Char) (c : Char)
    (h : (strip s).head? = some c) : isSpaceChar c = false := by
  have h1 : (stripLeft s).head? = some c := stripRight_head _ _ h
  simp only [stripLeft] at h1
  exact dropWhile_head_false isSpaceChar s c h1

/-- The model of str.strip is idempotent. -/
theorem strip_idem (s : List Char) : strip (strip s) = strip s := by
  have h1 : stripLeft (strip s) = strip s := by
    simp only [stripLeft]
    exact dropWhile_of_head_false _ _ (fun c hc => strip_head_false s c hc)
  show stripRight (stripLeft (strip s)) = strip s
  rw [h1]
  show stripRight (stripRight (stripLeft s)) = strip s
  rw [stripRight_idem]
  rfl

/-- A word-boundary match is in particular a substring match. -/
theorem wbAux_contains (needle hay : List Char) :
    ∀ prev, wbAux prev hay needle = true → containsSub hay needle = true := by
  induction hay with
  | nil =>
    intro prev h
    simp only [wbAux, Bool.and_eq_true] at h
    simp only [containsSub]
    exact h.1.2
  | cons c cs ih =>
    intro prev h
    simp only [wbAux, Bool.or_eq_true, Bool.and_eq_true] at h
    simp only [containsSub, Bool.or_eq_true]
    cases h with
    | inl h1 => exact Or.inl h1.1.2
    | inr h2 => exact Or.inr (ih (some c) h2)

theorem wbSearch_contains (hay needle : List Char) (h : wbSearch hay needle = true) :
    containsSub hay needle = true :=
  wbAux_contains needle hay none h

/-- Accepted gui content is non-empty and already stripped. -/
theorem parseGuiResult_content (r : ProcResult) (c : List Char)
    (h : parseGuiResult r = GuiParse.content c) : c ≠ [] ∧ strip c = c := by
  simp only [parseGuiResult] at h
  split at h
  · split at h
    · cases h
    · split at h
      · split at h
        · injection h with h2
          subst h2
          refine ⟨by assumption, ?_⟩
          simp only [extractContent]
          exact strip_idem _
        · cases h
      · cases h
  · cases h

/-- Content accepted by the gui loop is non-empty and already stripped. -/
theorem guiLoop_accept (procs : List ProcResult) :
    ∀ lines cur c procs2 lines2,
      NewFlow.guiLoop procs lines cur = (some c, procs2, lines2) →
      c ≠ [] ∧ strip c = c := by
  induction procs with
  | nil =>
    intro lines cur c p2 l2 h
    simp [NewFlow.guiLoop] at h
  | cons r procs ih =>
    intro lines cur c p2 l2 h
    cases hp : parseGuiResult r with
    | content cPrev =>
      cases lines with
      | nil => simp [NewFlow.guiLoop, hp] at h
      | cons choice rest =>
        simp only [NewFlow.guiLoop, hp] at h
        by_cases he : lowerStr (strip choice) = str "edit"
        · rw [if_pos he] at h
          exact ih rest cPrev c p2 l2 h
        · rw [if_neg he] at h
          simp only [Prod.mk.injEq, Option.some.injEq] at h
          obtain ⟨hc, -, -⟩ := h
          subst hc
          exact parseGuiResult_content r _ hp
    | cancelled => simp [NewFlow.guiLoop, hp] at h
    | emptyContent => simp [NewFlow.guiLoop, hp] at h
    | unexpected => simp [NewFlow.guiLoop, hp] at h
    | failed err => simp [NewFlow.guiLoop, hp] at h

/-- Projection form of `guiLoop_accept`. -/
theorem guiLoop_accept_fst (procs : List ProcResult) (lines : List (List Char))
    (cur c : List Char) (h : (NewFlow.guiLoop procs lines cur).1 = some c) :
    c ≠ [] ∧ strip c = c := by
  apply guiLoop_accept procs lines cur c (NewFlow.guiLoop procs lines cur).2.1
    (NewFlow.guiLoop procs lines cur).2.2
  rw [← h]

/-- Invariant of one run of main in src/flow.py: exactly one non-help
iteration, logging what it responds, never responding to help, and every
classified string is non-empty after stripping. -/
theorem flow_mainLoop_good (lines : List (List Char)) :
    (Flow.mainLoop lines).saves = (Flow.mainLoop lines).responses ∧
    (Flow.mainLoop lines).responses.length = 1 ∧
    (Flow.mainLoop lines).responses.all (fun x => x.1 != Intent.help) = true ∧
    (Flow.mainLoop lines).classified.all (fun s => !(strip s).isEmpty) = true := by
  induction lines with
  | nil => decide
  | cons line rest ih =>
    simp only [Flow.mainLoop]
    by_cases hu : strip line = []
    · simpa [hu] using ih
    · by_cases hp : (Flow.process_input (strip line)).1 = Intent.help
      · obtain ⟨ih1, ih2, ih3, ih4⟩ := ih
        simp [hu, hp, bumpHelp, ih1, ih2, ih3, ih4, strip_idem]
      · simp [hu, hp, respond, strip_idem]

theorem isEmpty_false_of_ne (l : List Char) (h : l ≠ []) : l.isEmpty = false := by
  cases l with
  | nil => exact absurd rfl h
  | cons c cs => rfl

/-- Invariant of one run of main in src/new_flow/flow.py: at most one non-help
iteration, logging exactly what it responds, never responding to help, and
every classified string is non-empty after stripping. -/
theorem nf_mainLoop_good (lines : List (List Char)) (procs : List ProcResult) :
    (NewFlow.mainLoop lines procs).saves = (NewFlow.mainLoop lines procs).responses ∧
    (NewFlow.mainLoop lines procs).responses.length ≤ 1 ∧
    (NewFlow.mainLoop lines procs).responses.all (fun x => x.1 != Intent.help) = true ∧
    (NewFlow.mainLoop lines procs).classified.all (fun s => !(strip s).isEmpty) = true := by
  induction lines, procs using NewFlow.mainLoop.induct with
  | case1 procs => simp [NewFlow.mainLoop]
  | case2 line rest procs u hu ih =>
    have hu2 : strip line = [] := hu
    simpa [NewFlow.mainLoop, hu2] using ih
  | case3 line rest procs u hu hgui g hg ih =>
    have hu2 : ¬ strip line = [] := hu
    have hgui2 : lowerStr (strip line) = str "gui" ∨ lowerStr (strip line) = str "edit" ∨
        lowerStr (strip line) = str "editor" := hgui
    have hg2 : (NewFlow.guiLoop procs rest []).1 = none := hg
    simpa [NewFlow.mainLoop, hu2, hgui2, hg2] using ih
  | case4 line rest procs u hu hgui g c hg p hp ih =>
    have hu2 : ¬ strip line = [] := hu
    have hgui2 : lowerStr (strip line) = str "gui" ∨ lowerStr (strip line) = str "edit" ∨
        lowerStr (strip line) = str "editor" := hgui
    have hg2 : (NewFlow.guiLoop procs rest []).1 = some c := hg
    have hp2 : (NewFlow.process_input c).1 = Intent.help := hp
    have hc := guiLoop_accept_fst procs rest [] c hg2
    obtain ⟨ih1, ih2, ih3, ih4⟩ := ih
    simp [NewFlow.mainLoop, hu2, hgui2, hg2, hp2, bumpHelp, ih1, ih2, ih3, ih4,
      hc.2, isEmpty_false_of_ne c hc.1]
  | case5 line rest procs u hu hgui g c hg p hp =>
    have hu2 : ¬ strip line = [] := hu
    have hgui2 : lowerStr (strip line) = str "gui" ∨ lowerStr (strip line) = str "edit" ∨
        lowerStr (strip line) = str "editor" := hgui
    have hg2 : (NewFlow.guiLoop procs rest []).1 = some c := hg
    have hp2 : ¬ (NewFlow.process_input c).1 = Intent.help := hp
    have hc := guiLoop_accept_fst procs rest [] c hg2
    simp [NewFlow.mainLoop, hu2, hgui2, hg2, hp2, respond,
      hc.2, isEmpty_false_of_ne c hc.1]
  | case6 line rest procs u hu hgui p hp ih =>
    have hu2 : ¬ strip line = [] := hu
    have hgui2 : ¬ (lowerStr (strip line) = str "gui" ∨ lowerStr (strip line) = str "edit" ∨
        lowerStr (strip line) = str "editor") := hgui
    have hp2 : (NewFlow.process_input (strip line)).1 = Intent.help := hp
    obtain ⟨ih1, ih2, ih3, ih4⟩ := ih
    simp [NewFlow.mainLoop, hu2, hgui2, hp2, bumpHelp, ih1, ih2, ih3, ih4,
      strip_idem, isEmpty_false_of_ne (strip line) hu2]
  | case7 line rest procs u hu hgui p hp =>
    have hu2 : ¬ strip line = [] := hu
    have hgui2 : ¬ (lowerStr (strip line) = str "gui" ∨ lowerStr (strip line) = str "edit" ∨
        lowerStr (strip line) = str "editor") := hgui
    have hp2 : ¬ (NewFlow.process_input (strip line)).1 = Intent.help := hp
    simp [NewFlow.mainLoop, hu2, hgui2, hp2, respond,
      strip_idem, isEmpty_false_of_ne (strip line) hu2]

/-- The prompting routine of src/flow.py returns only strings that are
non-empty after stripping: typed input is stripped and re-requested while
empty, and the EOF fallback is the non-empty string finish. -/
theorem flow_gui_nonempty (lines : List (List Char)) :
    strip (Flow.get_user_input lines).1 ≠ [] := by
  induction lines with
  | nil => decide
  | cons line rest ih =>
    simp only [Flow.get_user_input]
    by_cases hu : strip line = []
    · simpa [hu] using ih
    · simp only [hu, if_neg, not_false_iff, ite_false]
      rw [strip_idem]
      exact hu

/-- C1: the claim reads that every input containing a finish keyword as a
whole word classifies as finish in process_input, citing all three variants;
but process_input of src/new_flow/flow.py never returns finish, and
classifies the whole-word finish input of the claim as continue. -/
theorem c1_counterexample :
    wbSearch (strip (lowerStr (str "we are done."))) (str "done") = true ∧
    (NewFlow.process_input (str "we are done.")).1 ≠ Intent.finish ∧
    (NewFlow.process_input (str "we are done.")).1 = Intent.cont := by decide

/-- C1 (amended): in src/flow.py, any input containing one of its seven
finish keywords as a whole word (after stripping and lowering) classifies as
finish; in src/old_flow/flow.py the same holds for its two keywords done and
finish; the src/new_flow variant has no finish rule and classifies any input
without the help substring as continue. -/
theorem c1_theorem (s k : List Char) :
    (k ∈ Flow.finish_keywords → wbSearch (strip (lowerStr s)) k = true →
      (Flow.process_input s).1 = Intent.finish) ∧
    (k ∈ OldFlow.finish_keywords → wbSearch (strip (lowerStr s)) k = true →
      (OldFlow.process_input s).1 = Intent.finish) ∧
    (containsSub (strip (lowerStr s)) (str "help") = false →
      (NewFlow.process_input s).1 = Intent.cont) := by
  refine ⟨?_, ?_, ?_⟩
  · intro hk hw
    have hany : Flow.finish_keywords.any
        (fun keyword => containsSub (strip (lowerStr s)) keyword) = true :=
      List.any_eq_true.mpr ⟨k, hk, wbSearch_contains _ _ hw⟩
    simp [Flow.process_input, hany]
  · intro hk hw
    have hany : OldFlow.finish_keywords.any
        (fun keyword => wbSearch (strip (lowerStr s)) keyword) = true :=
      List.any_eq_true.mpr ⟨k, hk, hw⟩
    simp [OldFlow.process_input, hany]
  · intro hh
    simp [NewFlow.process_input, hh]

/-- C1 witness: the amended theorem evaluated on concrete inputs. -/
theorem c1_witness :
    (Flow.process_input (str "we are done.")).1 = Intent.finish ∧
    (OldFlow.process_input (str "we are done.")).1 = Intent.finish ∧
    (NewFlow.process_input (str "proceed")).1 = Intent.cont :=
  ⟨(c1_theorem (str "we are done.") (str "done")).1 (by decide) (by decide),
   (c1_theorem (str "we are done.") (str "done")).2.1 (by decide) (by decide),
   (c1_theorem (str "proceed") (str "done")).2.2 (by decide)⟩

/-- C2: the claim reads that appending to a log file holding invalid JSON
succeeds and reading back yields the one-entry array, citing both loggers;
but in src/flow.py the json.load failure aborts the whole append with a
warning, leaving the corrupted file unchanged, so reading back does not
yield the new entry. -/
theorem c2_counterexample :
    read_log_back (Flow.save_session_log (str "t1") Intent.cont (str "x")
        ⟨Disk.corrupt (str "oops"), Disk.absent⟩ true).log
      ≠ some [⟨str "t1", Intent.cont, str "x"⟩] ∧
    Flow.save_session_log (str "t1") Intent.cont (str "x")
        ⟨Disk.corrupt (str "oops"), Disk.absent⟩ true
      = ⟨Disk.corrupt (str "oops"), Disk.absent⟩ := by decide

/-- C2 (amended): the src/new_flow logger recovers from a corrupted log file:
the append succeeds, reading back yields exactly the one-entry array and the
prior unreadable content is discarded; the src/flow.py (and identical
src/old_flow) logger instead aborts the append with a warning and leaves the
corrupted file unchanged. -/
theorem c2_theorem (now u raw : List Char) (a : Intent) (fs : FS) (bOk : Bool)
    (h : fs.log = Disk.corrupt raw) :
    read_log_back (NewFlow.save_session_log now a u fs true bOk).log = some [⟨now, a, u⟩] ∧
    Flow.save_session_log now a u fs true = fs := by
  obtain ⟨lg, bk⟩ := fs
  simp only at h
  subst h
  simp [NewFlow.save_session_log, NewFlow.read_logs, Flow.save_session_log,
    Flow.read_logs, read_log_back]

/-- C2 witness: the amended theorem evaluated on a concrete corrupted file. -/
theorem c2_witness :
    read_log_back (NewFlow.save_session_log (str "t1") Intent.cont (str "x")
        ⟨Disk.corrupt (str "oops"), Disk.absent⟩ true true).log
      = some [⟨str "t1", Intent.cont, str "x"⟩] :=
  (c2_theorem (str "t1") (str "x") (str "oops") Intent.cont
    ⟨Disk.corrupt (str "oops"), Disk.absent⟩ true rfl).1

/-- C3: the claim reads that on a failed primary write the logger attempts
exactly one fallback, writing the one-entry array to the backup path, citing
all variants; but the src/flow.py (and identical src/old_flow) logger has no
fallback at all: on a failed write it only prints a warning, and the backup
file is never written. -/
theorem c3_counterexample :
    (Flow.save_session_log (str "t1") Intent.cont (str "x")
        ⟨Disk.absent, Disk.absent⟩ false).backup
      ≠ Disk.valid [⟨str "t1", Intent.cont, str "x"⟩] ∧
    (Flow.save_session_log (str "t1") Intent.cont (str "x")
        ⟨Disk.absent, Disk.absent⟩ false).backup = Disk.absent := by decide

/-- C3 (amended): in the src/new_flow logger a failed primary write leads to
exactly one fallback, writing the array holding only the new entry to the
backup path, and a failure of that fallback too leaves the state unchanged;
in the src/flow.py (and identical src/old_flow) logger a failed write leaves
the state unchanged with no fallback.  In every case the logger is a total
function: an append never raises. -/
theorem c3_theorem (now u : List Char) (a : Intent) (fs : FS) (bOk : Bool) :
    NewFlow.save_session_log now a u fs false bOk
      = (if bOk then { fs with backup := Disk.valid [⟨now, a, u⟩] } else fs) ∧
    Flow.save_session_log now a u fs false = fs := by
  constructor
  · cases bOk <;> simp [NewFlow.save_session_log]
  · cases h : Flow.read_logs fs.log <;> simp [Flow.save_session_log, h]

/-- C4: on the raw subprocess output of the claim, with exit code 0, the
marker parser of the bridge extracts exactly the trimmed text between the
end of the first start marker and the first end marker. -/
theorem c4_theorem :
    extractContent (strip (str "noise\nGUI_RESULT_START\nHello\nworld\nGUI_RESULT_END\ntrailer"))
      = str "Hello\nworld" ∧
    parseGuiResult ⟨0, str "noise\nGUI_RESULT_START\nHello\nworld\nGUI_RESULT_END\ntrailer", str ""⟩
      = GuiParse.content (str "Hello\nworld") := by decide

/-- C5: starting from an absent log file or one holding the empty array,
appending three entries in order and reading back yields exactly those three
entries in append order, in both loggers; moreover each successful append to
a valid array only appends the new entry at the end. -/
theorem c5_theorem (t1 t2 t3 t u1 u2 u3 u : List Char) (a1 a2 a3 a : Intent)
    (fs : FS) (l : List LogEntry) (b : Disk)
    (h : fs.log = Disk.absent ∨ fs.log = Disk.valid []) :
    read_log_back (NewFlow.save_session_log t3 a3 u3
        (NewFlow.save_session_log t2 a2 u2
          (NewFlow.save_session_log t1 a1 u1 fs true true) true true) true true).log
      = some [⟨t1, a1, u1⟩, ⟨t2, a2, u2⟩, ⟨t3, a3, u3⟩] ∧
    read_log_back (Flow.save_session_log t3 a3 u3
        (Flow.save_session_log t2 a2 u2
          (Flow.save_session_log t1 a1 u1 fs true) true) true).log
      = some [⟨t1, a1, u1⟩, ⟨t2, a2, u2⟩, ⟨t3, a3, u3⟩] ∧
    (NewFlow.save_session_log t a u ⟨Disk.valid l, b⟩ true true).log
      = Disk.valid (l ++ [⟨t, a, u⟩]) ∧
    (Flow.save_session_log t a u ⟨Disk.valid l, b⟩ true).log
      = Disk.valid (l ++ [⟨t, a, u⟩]) := by
  obtain ⟨lg, bk⟩ := fs
  simp only at h
  rcases h with h | h <;> subst h <;>
    simp [NewFlow.save_session_log, NewFlow.read_logs, Flow.save_session_log,
      Flow.read_logs, read_log_back]

/-- C5 witness: the round trip evaluated on three concrete entries. -/
theorem c5_witness :
    read_log_back (NewFlow.save_session_log (str "t3") Intent.cont (str "u3")
        (NewFlow.save_session_log (str "t2") Intent.cont (str "u2")
          (NewFlow.save_session_log (str "t1") Intent.finish (str "u1")
            ⟨Disk.absent, Disk.absent⟩ true true) true true) true true).log
      = some [⟨str "t1", Intent.finish, str "u1"⟩, ⟨str "t2", Intent.cont, str "u2"⟩,
          ⟨str "t3", Intent.cont, str "u3"⟩] :=
  (c5_theorem (str "t1") (str "t2") (str "t3") (str "t") (str "u1") (str "u2") (str "u3")
    (str "u") Intent.finish Intent.cont Intent.cont Intent.cont
    ⟨Disk.absent, Disk.absent⟩ [] Disk.absent (Or.inl rfl)).1

/-- C6: every string whose stripped lowering contains the substring help and
which does not match the finish rule checked first classifies as help: with
no finish-keyword substring in src/flow.py, and unconditionally in
src/new_flow, which has no finish rule. -/
theorem c6_theorem (s : List Char)
    (hh : containsSub (strip (lowerStr s)) (str "help") = true) :
    (Flow.finish_keywords.any
        (fun keyword => containsSub (strip (lowerStr s)) keyword) = false →
      (Flow.process_input s).1 = Intent.help) ∧
    (NewFlow.process_input s).1 = Intent.help := by
  constructor
  · intro hf
    simp [Flow.process_input, hf, hh]
  · simp [NewFlow.process_input, hh]

/-- C6 witness: the over-matching phrase of the claim classifies as help. -/
theorem c6_witness :
    (Flow.process_input (str "that would help")).1 = Intent.help ∧
    (NewFlow.process_input (str "that would help")).1 = Intent.help :=
  ⟨(c6_theorem (str "that would help") (by decide)).1 (by decide),
   (c6_theorem (str "that would help") (by decide)).2⟩

/-- C7: in src/flow.py every run ends after exactly one non-help iteration,
logging exactly what it responds and never responding to a help
classification; in src/new_flow the run prints at most one response block
(the stream ending prints none), again logging exactly the responses and
never responding to help. -/
theorem c7_theorem (lines glines : List (List Char)) (procs : List ProcResult) :
    (Flow.mainLoop lines).responses.length = 1 ∧
    (Flow.mainLoop lines).saves = (Flow.mainLoop lines).responses ∧
    (Flow.mainLoop lines).responses.all (fun x => x.1 != Intent.help) = true ∧
    (NewFlow.mainLoop glines procs).responses.length ≤ 1 ∧
    (NewFlow.mainLoop glines procs).saves = (NewFlow.mainLoop glines procs).responses ∧
    (NewFlow.mainLoop glines procs).responses.all (fun x => x.1 != Intent.help) = true := by
  obtain ⟨f1, f2, f3, f4⟩ := flow_mainLoop_good lines
  obtain ⟨n1, n2, n3, n4⟩ := nf_mainLoop_good glines procs
  exact ⟨f2, f1, f3, n2, n1, n3⟩

/-- C8: the prompting routine only returns strings that are non-empty after
stripping, and in both main loops every string that reaches process_input is
non-empty after stripping. -/
theorem c8_theorem (lines lines2 glines : List (List Char)) (procs : List ProcResult) :
    strip (Flow.get_user_input lines).1 ≠ [] ∧
    (Flow.mainLoop lines2).classified.all (fun s => !(strip s).isEmpty) = true ∧
    (NewFlow.mainLoop glines procs).classified.all (fun s => !(strip s).isEmpty) = true := by
  refine ⟨flow_gui_nonempty lines, ?_, ?_⟩
  · exact (flow_mainLoop_good lines2).2.2.2
  · exact (nf_mainLoop_good glines procs).2.2.2

/-- C9: when the subprocess exits with code 0, its stripped output contains
both block markers and no cancel marker, and the extracted trimmed content
is empty, the bridge reports the empty-content failure and the caller falls
back to terminal prompting, exactly as it does for a cancellation. -/
theorem c9_theorem (r : ProcResult) (choice : List Char)
    (h0 : r.returncode = 0)
    (hs : containsSub (strip r.stdout) startMarker = true)
    (he : containsSub (strip r.stdout) endMarker = true)
    (hc : containsSub (strip r.stdout) cancelMarker = false)
    (hempty : extractContent (strip r.stdout) = []) :
    parseGuiResult r = GuiParse.emptyContent ∧ guiStep r choice = GuiStep.abort := by
  have hp : parseGuiResult r = GuiParse.emptyContent := by
    simp [parseGuiResult, h0, hs, he, hc, hempty]
  exact ⟨hp, by simp [guiStep, hp]⟩

/-- C9 witness: a concrete marker pair around whitespace-only content. -/
theorem c9_witness :
    parseGuiResult ⟨0, str "GUI_RESULT_START\n \nGUI_RESULT_END", str ""⟩
      = GuiParse.emptyContent ∧
    guiStep ⟨0, str "GUI_RESULT_START\n \nGUI_RESULT_END", str ""⟩ (str "x")
      = GuiStep.abort :=
  c9_theorem ⟨0, str "GUI_RESULT_START\n \nGUI_RESULT_END", str ""⟩ (str "x")
    rfl (by decide) (by decide) (by decide) (by decide)

/-- C10: the cancellation check runs before the block check, so any exit-0
output whose stripped text contains the cancel marker anywhere reports
cancellation and discards any block content, even when a complete block is
also present. -/
theorem c10_theorem (r : ProcResult) (choice : List Char)
    (h0 : r.returncode = 0)
    (hc : containsSub (strip r.stdout) cancelMarker = true) :
    parseGuiResult r = GuiParse.cancelled ∧ guiStep r choice = GuiStep.abort := by
  have hp : parseGuiResult r = GuiParse.cancelled := by
    simp [parseGuiResult, h0, hc]
  exact ⟨hp, by simp [guiStep, hp]⟩

/-- C10 witness: output holding both a complete block and the cancel marker
still reports cancellation. -/
theorem c10_witness :
    parseGuiResult
        ⟨0, str "GUI_RESULT_START\nHello\nGUI_RESULT_END\nGUI_RESULT_CANCELLED", str ""⟩
      = GuiParse.cancelled ∧
    guiStep ⟨0, str "GUI_RESULT_START\nHello\nGUI_RESULT_END\nGUI_RESULT_CANCELLED", str ""⟩
        (str "x")
      = GuiStep.abort :=
  c10_theorem ⟨0, str "GUI_RESULT_START\nHello\nGUI_RESULT_END\nGUI_RESULT_CANCELLED", str ""⟩
    (str "x") rfl (by decide)
